import Mathlib

/-!
Verification of the SMTR-Rio SPPO bus-data service (`sppoService.js`,
`cacheService.js`, `sppoController.js`, `sppoRoutes.js`) against its
natural-language specification.

JavaScript numbers are modelled as exact rationals (`ℚ`); `NaN` is modelled
as `Option.none` at the points where the code can produce it.  `Infinity`
returned by `calcularDistancia` is modelled with `EReal`'s `⊤`.  Upstream
records are modelled with the schema the feed documents (all fields are
strings, possibly absent), so `latitude`, `longitude`, `velocidade`,
`datahora` and `linha` are `Option String`.
-/

set_option maxHeartbeats 1000000

/- `Rat.mul`/`Rat.add`/`Rat.sub`/`Rat.inv` are `@[irreducible]` in Batteries,
which blocks `decide` from evaluating concrete rational arithmetic; restore
the default reducibility for this file so concrete runs of the model reduce. -/
attribute [local semireducible] Rat.mul Rat.add Rat.sub Rat.inv

namespace Sppo

/-! ## Models of the JavaScript string/number primitives used by the service -/

/-- Whitespace recognised by JS `parseFloat`/`parseInt`/`trim` (ASCII subset;
the full JS set also has Unicode spaces, which the upstream feed never emits). -/
def jsWhitespace (c : Char) : Bool :=
  c = ' ' || c = '\t' || c = '\n' || c = '\r' || c = '\x0b' || c = '\x0c'

def skipWs (cs : List Char) : List Char := cs.dropWhile jsWhitespace

/-- Optional leading sign: returns (isNegative, rest). -/
def readSign : List Char → Bool × List Char
  | [] => (false, [])
  | c :: cs => if c = '-' then (true, cs) else if c = '+' then (false, cs) else (false, c :: cs)

def digitVal? (c : Char) : Option Nat :=
  if '0' ≤ c ∧ c ≤ '9' then some (c.toNat - 48) else none

/-- Longest run of decimal digits at the head of the list, with the rest. -/
def takeDigits : List Char → List Nat × List Char
  | [] => ([], [])
  | c :: cs =>
    match digitVal? c with
    | some d => let r := takeDigits cs; (d :: r.1, r.2)
    | none => ([], c :: cs)

/-- Value of a big-endian digit list as a natural number. -/
def natDigitsValN (ds : List Nat) : Nat := ds.foldl (fun a d => 10 * a + d) 0

/-- Value of a big-endian digit list as a rational. -/
def natDigitsVal (ds : List Nat) : ℚ := ds.foldl (fun a d => 10 * a + d) 0

/-- Optional exponent part `e`/`E` sign? digits; a malformed exponent is
ignored by JS `parseFloat` (the number parsed so far stands), hence value 0. -/
def readExpTail (t : List Char) : Int :=
  let s := readSign t
  let ds := takeDigits s.2
  if ds.1.isEmpty then 0
  else (if s.1 then -1 else 1) * (natDigitsValN ds.1 : Int)

def readExp : List Char → Int
  | 'e' :: t => readExpTail t
  | 'E' :: t => readExpTail t
  | _ => 0

/-- Model of JS `parseFloat` on a string: skip leading whitespace, optional
sign, integer digits, optional `.` and fraction digits, optional exponent;
`none` models `NaN` (no digits at all).  `Infinity` literals and the exact
double rounding are not modelled: values are exact rationals. -/
def parseFloatJS (s : String) : Option ℚ :=
  let cs := skipWs s.data
  let sg := readSign cs
  let ipr := takeDigits sg.2
  let fpr := match ipr.2 with
    | '.' :: t => takeDigits t
    | _ => ([], ipr.2)
  if ipr.1.isEmpty && fpr.1.isEmpty then none
  else
    let mag : ℚ :=
      (natDigitsVal ipr.1 + natDigitsVal fpr.1 / 10 ^ fpr.1.length)
        * (10 : ℚ) ^ (readExp fpr.2)
    some (if sg.1 then -mag else mag)

/-- Model of JS `parseInt` (no radix argument) on a string: skip whitespace,
optional sign, longest digit run; `none` models `NaN`.  The `0x` hexadecimal
prefix is not modelled (upstream `datahora` values are decimal). -/
def parseIntJS (s : String) : Option Int :=
  let cs := skipWs s.data
  let sg := readSign cs
  let ds := takeDigits sg.2
  if ds.1.isEmpty then none
  else some ((if sg.1 then -1 else 1) * (natDigitsValN ds.1 : Int))

/-- JS `x || 0` applied to a number-or-NaN: `NaN` (and `0`/`-0`) become `0`. -/
def jsOr0 : Option ℚ → ℚ
  | some v => v
  | none => 0

/-- JS `s.replace(',', '.')`: replaces only the first occurrence. -/
def replaceFirstComma : List Char → List Char
  | [] => []
  | c :: cs => if c = ',' then '.' :: cs else c :: replaceFirstComma cs

def jsReplaceCommaDot (s : String) : String := ⟨replaceFirstComma s.data⟩

/-- JS `String.prototype.trim` (ASCII whitespace subset, see `jsWhitespace`). -/
def jsTrim (s : String) : String :=
  ⟨((s.data.dropWhile jsWhitespace).reverse.dropWhile jsWhitespace).reverse⟩

/-- JS `String.prototype.toLowerCase`, restricted to ASCII (bus line codes). -/
def jsToLower (s : String) : String := ⟨s.data.map Char.toLower⟩

/-- `linha.toString().trim().toLowerCase()` as used by the service. -/
def jsTrimLower (s : String) : String := jsToLower (jsTrim s)

/-- JS `haystack.includes(needle)` (substring containment; true for `""`). -/
def listIncludes (needle : List Char) : List Char → Bool
  | [] => needle.isEmpty
  | c :: cs => needle.isPrefixOf (c :: cs) || listIncludes needle cs

def jsIncludes (hay needle : String) : Bool := listIncludes needle.data hay.data

/-- Model of JS `Number()` coercion of a string (used when a string flows into
arithmetic, e.g. `lat2 - lat1` with a string coordinate): whitespace-trimmed
empty string is `0`; otherwise the whole string must be a decimal numeral;
`none` models `NaN`.  Hex/binary/`Infinity` literals are not modelled. -/
def jsNumberStr (s : String) : Option ℚ :=
  let cs := skipWs s.data
  if cs.isEmpty then some 0
  else
    let sg := readSign cs
    let ipr := takeDigits sg.2
    let fpr := match ipr.2 with
      | '.' :: t => takeDigits t
      | _ => ([], ipr.2)
    if ipr.1.isEmpty && fpr.1.isEmpty then none
    else if ¬ (skipWs fpr.2).isEmpty then none
    else
      let mag : ℚ := natDigitsVal ipr.1 + natDigitsVal fpr.1 / 10 ^ fpr.1.length
      some (if sg.1 then -mag else mag)

/-! ## Data model -/

/-- One raw upstream record, per the feed schema (`latitude`/`longitude`
comma-decimal strings, `velocidade` a string, `datahora` epoch milliseconds as
a string, `linha` the route code); `none` models an absent field.  Passthrough
fields other than `linha` (e.g. `ordem`) do not influence any modelled
operation and are omitted. -/
structure RawBus where
  latitude : Option String
  longitude : Option String
  velocidade : Option String
  datahora : Option String
  linha : Option String
  deriving DecidableEq, Repr

/-- A successfully normalized record (`normalizeBusData`'s object literal).
`dataHora` holds the epoch milliseconds of the ISO timestamp string (the ISO
round-trip `new Date(iso).getTime()` is exact). -/
structure NormBus where
  latitude : ℚ
  longitude : ℚ
  velocidade : ℚ
  dataHora : Int
  linha : Option String
  deriving DecidableEq, Repr

/-- Result of `normalizeBusData`: the `catch` branch returns the original raw
object unchanged (reached exactly when `new Date(parseInt(datahora))
.toISOString()` throws: `datahora` missing/non-numeric, or out of the
`±8.64e15` ms range `Date` supports). -/
inductive NormResult where
  | ok (n : NormBus)
  | raw (b : RawBus)
  deriving DecidableEq, Repr

/-- Largest millisecond magnitude `Date.prototype.toISOString` accepts. -/
def maxDateMs : Nat := 8640000000000000

/-- `normalizeBusData(bus)` from `sppoService.js`:
latitude/longitude via `parseFloat(field?.replace(',', '.')) || 0`,
`dataHora` via `new Date(parseInt(bus.datahora)).toISOString()`,
`velocidade` via `parseFloat(bus.velocidade) || 0`; on an exception the
original object is returned. -/
def normalizeBusData (b : RawBus) : NormResult :=
  match b.datahora.bind parseIntJS with
  | some ms =>
    if ms.natAbs ≤ maxDateMs then
      .ok
        { latitude := jsOr0 ((b.latitude.map jsReplaceCommaDot).bind parseFloatJS)
          longitude := jsOr0 ((b.longitude.map jsReplaceCommaDot).bind parseFloatJS)
          velocidade := jsOr0 (b.velocidade.bind parseFloatJS)
          dataHora := ms
          linha := b.linha }
    else .raw b
  | none => .raw b

/-- `parseFloat(normalized.velocidade)` as evaluated by the active-vehicle
filter: a number passes through, a raw (catch-branch) record re-parses its
string field; `none` models `NaN`. -/
def filtVel : NormResult → Option ℚ
  | .ok n => some n.velocidade
  | .raw b => b.velocidade.bind parseFloatJS

/-- `new Date(normalized.dataHora).getTime()` as evaluated by the filter:
a raw (catch-branch) record has no `dataHora` field, so the `Date` is
invalid (`none` models `NaN`). -/
def filtMs : NormResult → Option Int
  | .ok n => some n.dataHora
  | .raw _ => none

/-- The em-rota filter of `getAllBusData`: keep when
`parseFloat(velocidade) > 0` or `(agora - dataHora)/60000 <= 5`;
comparisons against `NaN` are false. -/
def keepBus (agora : Int) (r : NormResult) : Bool :=
  let emMovimento :=
    match filtVel r with
    | some v => decide (0 < v)
    | none => false
  let dadosRecentes :=
    match filtMs r with
    | some ms => decide ((((agora - ms : Int) : ℚ)) / 60000 ≤ 5)
    | none => false
  emMovimento || dadosRecentes

/-- The single normalize-and-filter loop of `getAllBusData` over the raw
upstream array. -/
def activeBuses (agora : Int) (raws : List RawBus) : List NormResult :=
  (raws.map normalizeBusData).filter (keepBus agora)

/-! ## Cache store and service state

`node-cache` namespaces are modelled as association lists from key to the
stored value; an entry being present models an unexpired entry (TTL-based
expiry is wall-clock eviction and is not otherwise observable by the
operations verified here, so the TTL arguments of `set` are not stored). -/

abbrev CacheNS := List (String × List NormResult)

def cacheGet (c : CacheNS) (k : String) : Option (List NormResult) :=
  (c.find? (fun p => p.1 = k)).map Prod.snd

/-- `del(key)`: removes the key (all entries with that key, matching the
key-uniqueness of the real map). -/
def cacheDel (c : CacheNS) (k : String) : CacheNS :=
  c.filter (fun p => ¬ p.1 = k)

/-- `set(key, value)`: the new binding shadows/replaces any previous one. -/
def cacheSet (c : CacheNS) (k : String) (v : List NormResult) : CacheNS :=
  (k, v) :: cacheDel c k

/-- `bus.linha?.toString().trim().toLowerCase() || 'unknown'` — the index key
of a record (`linha` missing, or empty after trimming, gives `"unknown"`). -/
def busLinha : NormResult → Option String
  | .ok n => n.linha
  | .raw b => b.linha

def lineKey (r : NormResult) : String :=
  match busLinha r with
  | some s => if jsTrimLower s = "" then "unknown" else jsTrimLower s
  | none => "unknown"

/-- Push `b` onto the bucket of key `k`, creating the bucket at the end when
absent (JS `Map` insertion order). -/
def indexInsert (idx : CacheNS) (k : String) (b : NormResult) : CacheNS :=
  match idx with
  | [] => [(k, [b])]
  | (k0, bs) :: rest =>
    if k0 = k then (k0, bs ++ [b]) :: rest else (k0, bs) :: indexInsert rest k b

/-- `updateLineIndex(buses)`: clears the index and re-buckets every record by
its `lineKey`. -/
def updateLineIndex (buses : List NormResult) : CacheNS :=
  buses.foldl (fun idx b => indexInsert idx (lineKey b) b) []

/-- The mutable state of the `SppoService` singleton together with the three
`cacheService` namespaces. -/
structure SvcState where
  generalCache : CacheNS
  lineCache : CacheNS
  positionCache : CacheNS
  lastFetchTime : Option Int
  lineIndex : CacheNS
  deriving DecidableEq, Repr

def cacheKey : String := "sppo_all_buses"

def staleKey : String := "sppo_all_buses_stale"

/-- `fetchInterval` (ms). -/
def fetchInterval : Int := 300000

/-- Outcome of the single upstream HTTP GET: a JSON array, a non-array (or
falsy) payload, or a transport failure. -/
inductive Upstream where
  | ok (arr : List RawBus)
  | notArray
  | unreachable
  deriving DecidableEq, Repr

/-- The local-throttle branch of `getAllBusData`: when a fetch happened less
than `fetchInterval` ago, the stale snapshot (if cached) is returned instead
of a new upstream call. -/
def throttledStale (st : SvcState) (agora : Int) : Option (List NormResult) :=
  match st.lastFetchTime with
  | some t => if agora - t < fetchInterval then cacheGet st.generalCache staleKey else none
  | none => none

/-- `getAllBusData()` as a function of the current state, the clock (`agora`
= `Date.now()` in ms) and the upstream outcome.  `Except.error ()` models the
`throw new Error('Falha ao obter dados de GPS dos ônibus')` of the catch
block; the returned state reflects every cache/index write the call makes. -/
def getAllBusData (st : SvcState) (agora : Int) (up : Upstream) :
    Except Unit (List NormResult) × SvcState :=
  match cacheGet st.generalCache cacheKey with
  | some d => (.ok d, st)
  | none =>
    match throttledStale st agora with
    | some d => (.ok d, st)
    | none =>
      match up with
      | .ok arr =>
        let active := activeBuses agora arr
        (.ok active,
          { st with
            generalCache := cacheSet (cacheSet st.generalCache cacheKey active) staleKey active
            lastFetchTime := some agora
            lineIndex := updateLineIndex active })
      | _ =>
        match cacheGet st.generalCache staleKey with
        | some d => (.ok d, st)
        | none => (.error (), st)

/-- `clearCaches()`: deletes the two general-namespace keys and clears the
line index; the line and position namespaces are not touched. -/
def clearCaches (st : SvcState) : SvcState :=
  { st with
    generalCache := cacheDel (cacheDel st.generalCache cacheKey) staleKey
    lineIndex := [] }

/-- The exact-then-substring lookup of `getBusByLine` over the line index:
exact bucket when the key exists, else the ordered union of every bucket
whose key contains, or is contained in, the query. -/
def substrUnion (idx : CacheNS) (f : String) : List NormResult :=
  (idx.filter (fun p => jsIncludes p.1 f || jsIncludes f p.1)).flatMap Prod.snd

def lineIndexFind (idx : CacheNS) (f : String) : Option (List NormResult) :=
  (idx.find? (fun p => p.1 = f)).map Prod.snd

/-- `getBusByLine(linha)` as a state transformer (same conventions as
`getAllBusData`, whose outcome is used for the refetch branch). -/
def getBusByLine (st : SvcState) (agora : Int) (up : Upstream) (linha : String) :
    Except Unit (List NormResult) × SvcState :=
  let key := "line_active_" ++ linha
  match cacheGet st.lineCache key with
  | some d => (.ok d, st)
  | none =>
    let f := jsTrimLower linha
    match lineIndexFind st.lineIndex f with
    | some bs => (.ok bs, { st with lineCache := cacheSet st.lineCache key bs })
    | none =>
      let r1 := substrUnion st.lineIndex f
      if r1.length = 0 then
        match getAllBusData st agora up with
        | (.error e, st1) => (.error e, st1)
        | (.ok _, st1) =>
          let r2 :=
            match lineIndexFind st1.lineIndex f with
            | some bs => bs
            | none => substrUnion st1.lineIndex f
          (.ok r2, { st1 with lineCache := cacheSet st1.lineCache key r2 })
      else (.ok r1, { st with lineCache := cacheSet st.lineCache key r1 })

/-- The `Joi.string().min(1).max(20).required()` check of `sppoRoutes.js` /
`sppoController.js` on the `linha` path parameter. -/
def joiLinhaValid (s : String) : Bool :=
  1 ≤ s.length && s.length ≤ 20

/-! ## Distance filter (`calcularDistancia`) -/

/-- The inline `deg2rad` constant `0.017453292519943295` of the source (the
double closest to π/180, embedded as the literal it is written as). -/
noncomputable def deg2rad : ℝ := 0.017453292519943295

open Classical in
/-- `Math.atan2(y, x)`. -/
noncomputable def atan2 (y x : ℝ) : ℝ :=
  if 0 < x then Real.arctan (y / x)
  else if x < 0 ∧ 0 ≤ y then Real.arctan (y / x) + Real.pi
  else if x < 0 ∧ y < 0 then Real.arctan (y / x) - Real.pi
  else if x = 0 ∧ 0 < y then Real.pi / 2
  else if x = 0 ∧ y < 0 then -(Real.pi / 2)
  else 0

/-- The haversine computation of `calcularDistancia` (Earth radius 6371 km,
degrees scaled to radians by `deg2rad`): `R * 2 * atan2(√a, √(1-a))`. -/
noncomputable def haversineKm (lat1 lon1 lat2 lon2 : ℝ) : ℝ :=
  let dLat := (lat2 - lat1) * deg2rad
  let dLon := (lon2 - lon1) * deg2rad
  let a :=
    Real.sin (dLat / 2) * Real.sin (dLat / 2) +
      Real.cos (lat1 * deg2rad) * Real.cos (lat2 * deg2rad) *
        Real.sin (dLon / 2) * Real.sin (dLon / 2)
  6371 * 2 * atan2 (Real.sqrt a) (Real.sqrt (1 - a))

open Classical in
/-- `calcularDistancia(lat1, lon1, lat2, lon2)`: bounding-box pre-filter
(`maxLatDiff = maxLonDiff = 0.1`) returning `Infinity` (modelled as `⊤`),
otherwise the haversine distance. -/
noncomputable def calcularDistancia (lat1 lon1 lat2 lon2 : ℝ) : EReal :=
  if |lat2 - lat1| > 0.1 ∨ |lon2 - lon1| > 0.1 then ⊤
  else ((haversineKm lat1 lon1 lat2 lon2 : ℝ) : EReal)

/-! ## Position filter (`getBusByPosition`) -/

/-- JS `Number()` coercion of `bus.latitude` when it flows into the
arithmetic of `calcularDistancia`: a normalized record contributes its
number; a raw (catch-branch) record contributes `Number(string)`; `none`
models `NaN`. -/
def busLatNum : NormResult → Option ℚ
  | .ok n => some n.latitude
  | .raw b => b.latitude.bind jsNumberStr

def busLonNum : NormResult → Option ℚ
  | .ok n => some n.longitude
  | .raw b => b.longitude.bind jsNumberStr

/-- Truthiness of `bus.latitude` (`if (!bus.latitude || !bus.longitude)
return false`): the number `0` and the empty string are falsy. -/
def busLatTruthy : NormResult → Bool
  | .ok n => decide (n.latitude ≠ 0)
  | .raw b => match b.latitude with
    | some s => decide (s ≠ "")
    | none => false

def busLonTruthy : NormResult → Bool
  | .ok n => decide (n.longitude ≠ 0)
  | .raw b => match b.longitude with
    | some s => decide (s ≠ "")
    | none => false

/-- `calcularDistancia(lat, lon, bus.latitude, bus.longitude)`.  A `NaN`
coordinate makes every JS comparison on the distance false, which is exactly
how `⊤` behaves against any finite radius, so `NaN` distances are folded
into `⊤`. -/
noncomputable def busDistancia (lat lon : ℚ) (b : NormResult) : EReal :=
  match busLatNum b, busLonNum b with
  | some la, some lo => calcularDistancia (lat : ℝ) (lon : ℝ) (la : ℝ) (lo : ℝ)
  | _, _ => ⊤

/-- The per-record predicate of `getBusByPosition`'s filter: truthy
coordinates, `distancia <= raioKm`, and the same em-rota predicate as
`getAllBusData`. -/
def KeepPos (lat lon raio : ℚ) (agora : Int) (b : NormResult) : Prop :=
  busLatTruthy b = true ∧ busLonTruthy b = true ∧
    busDistancia lat lon b ≤ (((raio : ℚ) : ℝ) : EReal) ∧ keepBus agora b = true

open Classical in
/-- The `allData.filter(...)` step of `getBusByPosition` (the cache wrapper
around it stores and replays this very list and is orthogonal to the
distance/radius behaviour verified here). -/
noncomputable def positionFilter (lat lon raio : ℚ) (agora : Int)
    (allData : List NormResult) : List NormResult :=
  allData.filter (fun b => decide (KeepPos lat lon raio agora b))

/-! ## Comma-decimal numerals (specification side, for claim C3)

A "valid comma-decimal coordinate string" per the spec: optional minus sign,
integer digits, a comma, fraction digits; its mathematical value is defined
independently of the parsing code. -/

def digitChar (d : Nat) : Char := Char.ofNat (48 + d)

def commaDecimalStr (neg : Bool) (ip fp : List Nat) : String :=
  ⟨(if neg then ['-'] else []) ++ ip.map digitChar ++ ',' :: fp.map digitChar⟩

def commaDecimalVal (neg : Bool) (ip fp : List Nat) : ℚ :=
  (if neg then -1 else 1) * (natDigitsVal ip + natDigitsVal fp / 10 ^ fp.length)

/-! ## Projections and concrete records used in claim statements -/

def normVel : NormResult → Option ℚ
  | .ok n => some n.velocidade
  | .raw _ => none

def normLat : NormResult → Option ℚ
  | .ok n => some n.latitude
  | .raw _ => none

/-- A raw record whose `velocidade` field is the string `"-5"`. -/
def negSpeedBus : RawBus :=
  { latitude := some "-22,9068", longitude := some "-43,1729",
    velocidade := some "-5", datahora := some "1700000000000", linha := some "415" }

/-- A raw record whose `latitude` is the out-of-range numeral `"1000,0"`. -/
def hugeLatBus : RawBus :=
  { latitude := some "1000,0", longitude := some "0,0",
    velocidade := some "0", datahora := some "1700000000000", linha := some "415" }

/-- Speed 0, observed 6 minutes before the fetch instant `1700000000000`. -/
def stoppedOldBus : RawBus :=
  { latitude := some "-22,9", longitude := some "-43,2",
    velocidade := some "0", datahora := some "1699999640000", linha := some "415" }

/-- Speed 0, observed 4 minutes before the fetch instant `1700000000000`. -/
def stoppedRecentBus : RawBus :=
  { latitude := some "-22,8", longitude := some "-43,3",
    velocidade := some "0", datahora := some "1699999760000", linha := some "415" }

/-- Speed 5, observed 1 hour before the fetch instant `1700000000000`. -/
def movingOldBus : RawBus :=
  { latitude := some "-22,7", longitude := some "-43,4",
    velocidade := some "5", datahora := some "1699996400000", linha := some "415" }

/-- A raw record with an unparseable latitude string (`"abc"`). -/
def badLatBus : RawBus :=
  { latitude := some "abc", longitude := some "0,0",
    velocidade := some "0", datahora := some "1700000000000", linha := some "415" }

/-- A normalized record sitting exactly at the query point `(10, 10)`. -/
def atCenterBus : NormResult :=
  .ok { latitude := 10, longitude := 10, velocidade := 1,
        dataHora := 1700000000000, linha := some "415" }

/-- A service state whose line-cache namespace holds one entry. -/
def lineCachedState : SvcState :=
  { generalCache := [], lineCache := [("line_active_415", [atCenterBus])],
    positionCache := [], lastFetchTime := none, lineIndex := [] }

/-- The empty service state (all caches empty, no fetch yet). -/
def emptyState : SvcState :=
  { generalCache := [], lineCache := [], positionCache := [],
    lastFetchTime := none, lineIndex := [] }

/-- A state with empty caches and a one-record line index. -/
def blankQueryState : SvcState :=
  { generalCache := [], lineCache := [], positionCache := [],
    lastFetchTime := none, lineIndex := updateLineIndex [atCenterBus] }

/-! ## Lemmas about the string primitives -/

lemma digitVal?_digitChar {d : Nat} (h : d < 10) : digitVal? (digitChar d) = some d := by
  interval_cases d <;> decide

lemma digitChar_ne_comma {d : Nat} (h : d < 10) : digitChar d ≠ ',' := by
  interval_cases d <;> decide

lemma digitChar_ne_dash {d : Nat} (h : d < 10) : digitChar d ≠ '-' := by
  interval_cases d <;> decide

lemma digitChar_ne_plus {d : Nat} (h : d < 10) : digitChar d ≠ '+' := by
  interval_cases d <;> decide

lemma jsWhitespace_digitChar {d : Nat} (h : d < 10) : jsWhitespace (digitChar d) = false := by
  interval_cases d <;> decide

lemma replaceFirstComma_append (pre post : List Char) (h : ',' ∉ pre) :
    replaceFirstComma (pre ++ ',' :: post) = pre ++ '.' :: post := by
  induction pre with
  | nil => simp [replaceFirstComma]
  | cons c t ih =>
    have hc : ¬ (c = ',') := fun hh => h (by simp [hh])
    have ht : ',' ∉ t := fun hh => h (List.mem_cons_of_mem _ hh)
    simp [replaceFirstComma, hc, ih ht]

lemma skipWs_cons_of_not_ws (c : Char) (cs : List Char) (h : jsWhitespace c = false) :
    skipWs (c :: cs) = c :: cs := by
  simp [skipWs, List.dropWhile_cons, h]

lemma readSign_dash (cs : List Char) : readSign ('-' :: cs) = (true, cs) := rfl

lemma readSign_other (c : Char) (cs : List Char) (h1 : ¬ c = '-') (h2 : ¬ c = '+') :
    readSign (c :: cs) = (false, c :: cs) := by
  simp [readSign, h1, h2]

lemma takeDigits_map_append (ds : List Nat) (rest : List Char)
    (hds : ∀ d ∈ ds, d < 10)
    (hrest : ∀ c, rest.head? = some c → digitVal? c = none) :
    takeDigits (ds.map digitChar ++ rest) = (ds, rest) := by
  induction ds with
  | nil =>
    cases rest with
    | nil => rfl
    | cons c t =>
      simp only [List.map_nil, List.nil_append, takeDigits, hrest c rfl]
  | cons d t ih =>
    have hd : d < 10 := hds d (List.mem_cons_self d t)
    simp only [List.map_cons, List.cons_append, takeDigits, List.append_eq,
      digitVal?_digitChar hd, ih (fun x hx => hds x (List.mem_cons_of_mem _ hx))]

lemma head?_dot_digitVal (fp : List Nat) :
    ∀ c : Char, (('.' :: fp.map digitChar).head? = some c) → digitVal? c = none := by
  intro c hc
  simp only [List.head?_cons, Option.some.injEq] at hc
  subst hc; decide

/-- `parseFloat` on a dotted decimal numeral built from digit lists computes
its mathematical value (composed with the `|| 0` coercion, which only maps
`NaN`, `0` and `-0` to `0`). -/
lemma parseFloatJS_dotted (neg : Bool) (ip fp : List Nat)
    (hip : ∀ d ∈ ip, d < 10) (hfp : ∀ d ∈ fp, d < 10) :
    jsOr0 (parseFloatJS
        ⟨(if neg then ['-'] else []) ++ ip.map digitChar ++ '.' :: fp.map digitChar⟩)
      = commaDecimalVal neg ip fp := by
  have hfrac : takeDigits (fp.map digitChar) = (fp, []) := by
    have h0 := takeDigits_map_append fp [] hfp (by intro c hc; simp at hc)
    simpa using h0
  cases neg with
  | true =>
    have hdig : takeDigits (ip.map digitChar ++ '.' :: fp.map digitChar)
        = (ip, '.' :: fp.map digitChar) :=
      takeDigits_map_append ip _ hip (head?_dot_digitVal fp)
    show jsOr0 (parseFloatJS ⟨'-' :: (ip.map digitChar ++ '.' :: fp.map digitChar)⟩)
        = commaDecimalVal true ip fp
    simp only [parseFloatJS, skipWs_cons_of_not_ws '-' _ (by decide), readSign_dash,
      hdig, hfrac]
    rw [show readExp [] = (0 : Int) from rfl]
    by_cases h1 : ip = [] <;> by_cases h2 : fp = [] <;>
      simp_all [jsOr0, commaDecimalVal, natDigitsVal, zpow_zero]
  | false =>
    cases ip with
    | nil =>
      have hdot : takeDigits ('.' :: fp.map digitChar) = ([], '.' :: fp.map digitChar) := by
        simpa using takeDigits_map_append [] _ (by simp) (head?_dot_digitVal fp)
      show jsOr0 (parseFloatJS ⟨'.' :: fp.map digitChar⟩) = commaDecimalVal false [] fp
      simp only [parseFloatJS, skipWs_cons_of_not_ws '.' _ (by decide),
        readSign_other '.' _ (by decide) (by decide), hdot, hfrac]
      rw [show readExp [] = (0 : Int) from rfl]
      by_cases h2 : fp = [] <;>
        simp_all [jsOr0, commaDecimalVal, natDigitsVal, zpow_zero]
    | cons d t =>
      have hd : d < 10 := hip d (List.mem_cons_self d t)
      show jsOr0 (parseFloatJS
          ⟨digitChar d :: (t.map digitChar ++ '.' :: fp.map digitChar)⟩)
          = commaDecimalVal false (d :: t) fp
      simp only [parseFloatJS, skipWs_cons_of_not_ws (digitChar d) _ (jsWhitespace_digitChar hd),
        readSign_other (digitChar d) _ (digitChar_ne_dash hd) (digitChar_ne_plus hd)]
      rw [show digitChar d :: (List.map digitChar t ++ '.' :: List.map digitChar fp)
            = List.map digitChar (d :: t) ++ '.' :: List.map digitChar fp by simp]
      rw [takeDigits_map_append (d :: t) _ hip (head?_dot_digitVal fp)]
      simp only [hfrac]
      rw [show readExp [] = (0 : Int) from rfl]
      by_cases h2 : fp = [] <;>
        simp_all [jsOr0, commaDecimalVal, natDigitsVal, zpow_zero]

/-! ## Inversion lemmas for `normalizeBusData` -/

lemma normalize_ok_of_parse {b : RawBus} {ms : Int}
    (h1 : b.datahora.bind parseIntJS = some ms) (h2 : ms.natAbs ≤ maxDateMs) :
    normalizeBusData b = .ok
      { latitude := jsOr0 ((b.latitude.map jsReplaceCommaDot).bind parseFloatJS)
        longitude := jsOr0 ((b.longitude.map jsReplaceCommaDot).bind parseFloatJS)
        velocidade := jsOr0 (b.velocidade.bind parseFloatJS)
        dataHora := ms
        linha := b.linha } := by
  simp [normalizeBusData, h1, h2]

lemma normalize_ok_fields {b : RawBus} {n : NormBus} (h : normalizeBusData b = .ok n) :
    n.latitude = jsOr0 ((b.latitude.map jsReplaceCommaDot).bind parseFloatJS) ∧
    n.longitude = jsOr0 ((b.longitude.map jsReplaceCommaDot).bind parseFloatJS) ∧
    n.velocidade = jsOr0 (b.velocidade.bind parseFloatJS) ∧
    b.datahora.bind parseIntJS = some n.dataHora ∧
    n.linha = b.linha := by
  rcases hms : b.datahora.bind parseIntJS with _ | ms
  · have h2 : normalizeBusData b = .raw b := by simp [normalizeBusData, hms]
    rw [h2] at h; exact absurd h (by simp)
  · by_cases hle : ms.natAbs ≤ maxDateMs
    · have h2 := normalize_ok_of_parse hms hle
      have h3 := h.symm.trans h2
      injection h3 with h4
      subst h4
      exact ⟨rfl, rfl, rfl, rfl, rfl⟩
    · have h2 : normalizeBusData b = .raw b := by simp [normalizeBusData, hms, hle]
      rw [h2] at h; exact absurd h (by simp)

/-- The string the first comma is replaced with in a comma-decimal numeral
is the corresponding dot-decimal numeral. -/
lemma replace_commaDecimalStr (neg : Bool) (ip fp : List Nat)
    (hip : ∀ d ∈ ip, d < 10) :
    jsReplaceCommaDot (commaDecimalStr neg ip fp)
      = ⟨(if neg then ['-'] else []) ++ ip.map digitChar ++ '.' :: fp.map digitChar⟩ := by
  have hmem : ',' ∉ (if neg then ['-'] else []) ++ ip.map digitChar := by
    intro hmem
    rcases List.mem_append.mp hmem with h | h
    · cases neg <;> simp_all
    · rcases List.mem_map.mp h with ⟨d, hd, hcd⟩
      exact digitChar_ne_comma (hip d hd) hcd
  simp only [jsReplaceCommaDot, commaDecimalStr]
  exact congrArg String.mk (replaceFirstComma_append _ _ hmem)

/-! ## Claim C3 -/

/-- C3 counterexample: `normalizeBusData` does not coerce speed to a
non-negative value — the raw record `negSpeedBus` (source `velocidade`
string `"-5"`) normalizes to speed `-5 < 0`, refuting "produces a speed
value that is a non-negative float". -/
theorem C3_counterexample :
    normVel (normalizeBusData negSpeedBus) = some (-5) ∧ ¬ (0 ≤ (-5 : ℚ)) :=
  ⟨by decide, by decide⟩

/-- C3 (amended): normalization parses a comma-decimal coordinate numeral to
its exact dotted-float value, defaults each coordinate to 0 on parse
failure, copies the parsed `datahora` milliseconds as the absolute
timestamp, and sets speed to `parseFloat(velocidade)` defaulting to 0 when
unparseable; the speed is, however, *not* clamped to be non-negative — a
parseable negative source speed passes through unchanged. -/
theorem C3_normalize_amended :
    (∀ (neg : Bool) (ip fp : List Nat), (∀ d ∈ ip, d < 10) → (∀ d ∈ fp, d < 10) →
        jsOr0 (parseFloatJS (jsReplaceCommaDot (commaDecimalStr neg ip fp)))
          = commaDecimalVal neg ip fp) ∧
    (∀ (b : RawBus) (n : NormBus), normalizeBusData b = .ok n →
        n.velocidade = jsOr0 (b.velocidade.bind parseFloatJS) ∧
        n.latitude = jsOr0 ((b.latitude.map jsReplaceCommaDot).bind parseFloatJS) ∧
        n.longitude = jsOr0 ((b.longitude.map jsReplaceCommaDot).bind parseFloatJS) ∧
        (b.velocidade.bind parseFloatJS = none → n.velocidade = 0) ∧
        ((b.latitude.map jsReplaceCommaDot).bind parseFloatJS = none → n.latitude = 0) ∧
        b.datahora.bind parseIntJS = some n.dataHora) := by
  constructor
  · intro neg ip fp hip hfp
    rw [replace_commaDecimalStr neg ip fp hip]
    exact parseFloatJS_dotted neg ip fp hip hfp
  · intro b n h
    obtain ⟨hla, hlo, hv, hms, -⟩ := normalize_ok_fields h
    refine ⟨hv, hla, hlo, ?_, ?_, hms⟩
    · intro h0; rw [hv, h0]; rfl
    · intro h0; rw [hla, h0]; rfl

/-- Witness for the amended C3: the spec's own example numeral `"-22,9068"`
(sign `-`, digits `22`, fraction `9068`) round-trips to its value. -/
theorem C3_normalize_amended_witness :
    jsOr0 (parseFloatJS (jsReplaceCommaDot (commaDecimalStr true [2, 2] [9, 0, 6, 8])))
      = commaDecimalVal true [2, 2] [9, 0, 6, 8] :=
  C3_normalize_amended.1 true [2, 2] [9, 0, 6, 8] (by decide) (by decide)

/-! ## Claim C5 -/

/-- C5 counterexample: coordinates are not clamped to their ranges — the
latitude numeral `"1000,0"` normalizes to `1000`, outside `[-90, 90]`. -/
theorem C5_counterexample :
    normLat (normalizeBusData hugeLatBus) = some 1000 ∧ ¬ ((1000 : ℚ) ≤ 90) :=
  ⟨by decide, by decide⟩

/-- C5 (amended): the normalized coordinate *equals* the `|| 0`-coerced
parsed source value — no clamping of any kind — so a malformed source
coordinate normalizes to `0` and, when the source parses to `v`, the
normalized latitude lies in `[-90,90]` (longitude in `[-180,180]`) *exactly
when* `v` does; out-of-range source numerals pass through out of range. -/
theorem C5_range_amended :
    ∀ (b : RawBus) (n : NormBus), normalizeBusData b = .ok n →
      n.latitude = jsOr0 ((b.latitude.map jsReplaceCommaDot).bind parseFloatJS) ∧
      n.longitude = jsOr0 ((b.longitude.map jsReplaceCommaDot).bind parseFloatJS) ∧
      ((b.latitude.map jsReplaceCommaDot).bind parseFloatJS = none → n.latitude = 0) ∧
      ((b.longitude.map jsReplaceCommaDot).bind parseFloatJS = none → n.longitude = 0) ∧
      (∀ v : ℚ, (b.latitude.map jsReplaceCommaDot).bind parseFloatJS = some v →
        (n.latitude = v ∧ ((-90 ≤ n.latitude ∧ n.latitude ≤ 90) ↔ (-90 ≤ v ∧ v ≤ 90)))) ∧
      (∀ v : ℚ, (b.longitude.map jsReplaceCommaDot).bind parseFloatJS = some v →
        (n.longitude = v ∧
          ((-180 ≤ n.longitude ∧ n.longitude ≤ 180) ↔ (-180 ≤ v ∧ v ≤ 180)))) := by
  intro b n h
  obtain ⟨hla, hlo, -, -, -⟩ := normalize_ok_fields h
  refine ⟨hla, hlo, ?_, ?_, ?_, ?_⟩
  · intro h0; rw [hla, h0]; rfl
  · intro h0; rw [hlo, h0]; rfl
  · intro v hv
    rw [hla, hv]
    exact ⟨rfl, Iff.rfl⟩
  · intro v hv
    rw [hlo, hv]
    exact ⟨rfl, Iff.rfl⟩

/-- Witness for the amended C5: `badLatBus` (latitude `"abc"`) normalizes
with latitude defaulted to `0`. -/
theorem C5_range_amended_witness :
    (⟨0, 0, 0, 1700000000000, some "415"⟩ : NormBus).latitude = 0 :=
  (C5_range_amended badLatBus ⟨0, 0, 0, 1700000000000, some "415"⟩ (by decide)).2.2.1
    (by decide)

/-! ## Claim C1 -/

/-- C1: a record processed by `getAllBusData` whose normalization succeeds is
kept in the active set iff its normalized speed is `> 0` or it was observed
at most 5 minutes before the fetch instant; in particular, at fetch instant
`1700000000000`, a speed-0 record observed 6 minutes earlier is excluded
while a speed-0 record observed 4 minutes earlier and a speed-5 record
observed 1 hour earlier are both included. -/
theorem C1_active_filter :
    (∀ (agora : Int) (raws : List RawBus) (b : RawBus) (ms : Int),
        b ∈ raws →
        b.datahora.bind parseIntJS = some ms →
        ms.natAbs ≤ maxDateMs →
        (normalizeBusData b ∈ activeBuses agora raws ↔
          (0 < jsOr0 (b.velocidade.bind parseFloatJS) ∨
            ((agora - ms : Int) : ℚ) / 60000 ≤ 5))) ∧
    activeBuses 1700000000000 [stoppedOldBus, stoppedRecentBus, movingOldBus]
      = [normalizeBusData stoppedRecentBus, normalizeBusData movingOldBus] := by
  constructor
  · intro agora raws b ms hmem hms hrange
    have hok := normalize_ok_of_parse hms hrange
    have hmap : normalizeBusData b ∈ raws.map normalizeBusData :=
      List.mem_map_of_mem _ hmem
    rw [activeBuses, List.mem_filter]
    constructor
    · rintro ⟨-, hkeep⟩
      rw [hok] at hkeep
      simpa [keepBus, filtVel, filtMs] using hkeep
    · intro hor
      refine ⟨hmap, ?_⟩
      rw [hok]
      simpa [keepBus, filtVel, filtMs] using hor
  · decide

/-- Witness for C1: the concrete speed-0, 4-minutes-old record is in the
active set of a one-element fetch. -/
theorem C1_active_filter_witness :
    stoppedRecentBus ∈ [stoppedRecentBus] ∧
    normalizeBusData stoppedRecentBus ∈ activeBuses 1700000000000 [stoppedRecentBus] := by
  refine ⟨by decide, ?_⟩
  exact (C1_active_filter.1 1700000000000 [stoppedRecentBus] stoppedRecentBus
      1699999760000 (by decide) (by decide) (by decide)).mpr (Or.inr (by decide))

/-! ## Lemmas about the line index -/

lemma indexInsert_keys (idx : CacheNS) (k : String) (b : NormResult) :
    (indexInsert idx k b).map Prod.fst =
      if k ∈ idx.map Prod.fst then idx.map Prod.fst else idx.map Prod.fst ++ [k] := by
  induction idx with
  | nil => simp [indexInsert]
  | cons p t ih =>
    by_cases h : p.1 = k
    · simp [indexInsert, h]
    · have hk : ¬ k = p.1 := fun hh => h hh.symm
      simp only [indexInsert, if_neg h, List.map_cons, ih, List.mem_cons]
      by_cases hm : k ∈ t.map Prod.fst
      · simp [hm, hk]
      · simp [hm, hk]

lemma indexInsert_nodupKeys (idx : CacheNS) (k : String) (b : NormResult)
    (h : (idx.map Prod.fst).Nodup) : ((indexInsert idx k b).map Prod.fst).Nodup := by
  rw [indexInsert_keys]
  by_cases hm : k ∈ idx.map Prod.fst
  · simpa [hm] using h
  · simp [hm, List.nodup_append, h]

lemma indexInsert_buckets (k : String) (b : NormResult) (hk : lineKey b = k) :
    ∀ idx : CacheNS, (∀ p ∈ idx, ∀ x ∈ p.2, lineKey x = p.1) →
      ∀ p ∈ indexInsert idx k b, ∀ x ∈ p.2, lineKey x = p.1 := by
  intro idx
  induction idx with
  | nil =>
    intro _ p hp x hx
    simp only [indexInsert, List.mem_singleton] at hp
    subst hp
    simp only [List.mem_singleton] at hx
    subst hx
    exact hk
  | cons q t ih =>
    intro h p hp x hx
    by_cases hq : q.1 = k
    · simp only [indexInsert, if_pos hq, List.mem_cons] at hp
      rcases hp with hp | hp
      · subst hp
        rcases List.mem_append.mp hx with hx2 | hx2
        · exact h q (List.mem_cons_self q t) x hx2
        · simp only [List.mem_singleton] at hx2
          subst hx2
          exact hk.trans hq.symm
      · exact h p (List.mem_cons_of_mem _ hp) x hx
    · simp only [indexInsert, if_neg hq, List.mem_cons] at hp
      rcases hp with hp | hp
      · exact h p (List.mem_cons.mpr (Or.inl hp)) x hx
      · exact ih (fun r hr => h r (List.mem_cons_of_mem _ hr)) p hp x hx

lemma indexInsert_join (idx : CacheNS) (k : String) (b : NormResult) :
    ((indexInsert idx k b).flatMap Prod.snd).Perm (b :: idx.flatMap Prod.snd) := by
  induction idx with
  | nil => simp [indexInsert]
  | cons q t ih =>
    by_cases hq : q.1 = k
    · simp only [indexInsert, if_pos hq, List.flatMap_cons, List.append_assoc]
      exact List.perm_middle
    · simp only [indexInsert, if_neg hq, List.flatMap_cons]
      exact (List.Perm.append_left q.2 ih).trans List.perm_middle

lemma foldl_insert_join (l : List NormResult) :
    ∀ idx : CacheNS,
      ((l.foldl (fun i x => indexInsert i (lineKey x) x) idx).flatMap Prod.snd).Perm
        (idx.flatMap Prod.snd ++ l) := by
  induction l with
  | nil => intro idx; simp
  | cons x t ih =>
    intro idx
    simp only [List.foldl_cons]
    refine (ih _).trans ?_
    refine (List.Perm.append_right t (indexInsert_join idx (lineKey x) x)).trans ?_
    exact (@List.perm_middle _ x (idx.flatMap Prod.snd) t).symm

lemma foldl_insert_nodup (l : List NormResult) :
    ∀ idx : CacheNS, (idx.map Prod.fst).Nodup →
      ((l.foldl (fun i x => indexInsert i (lineKey x) x) idx).map Prod.fst).Nodup := by
  induction l with
  | nil => intro idx h; exact h
  | cons x t ih =>
    intro idx h
    exact ih _ (indexInsert_nodupKeys idx (lineKey x) x h)

lemma foldl_insert_buckets (l : List NormResult) :
    ∀ idx : CacheNS, (∀ p ∈ idx, ∀ x ∈ p.2, lineKey x = p.1) →
      ∀ p ∈ l.foldl (fun i x => indexInsert i (lineKey x) x) idx,
        ∀ x ∈ p.2, lineKey x = p.1 := by
  induction l with
  | nil => intro idx h; exact h
  | cons x t ih =>
    intro idx h
    exact ih _ (indexInsert_buckets (lineKey x) x rfl idx h)

/-! ## Claim C8 -/

/-- C8: `updateLineIndex` partitions its input: the multiset union of the
buckets is a permutation of the input list, the bucket keys are pairwise
distinct (so each record lands in exactly one bucket), and every record in a
bucket has that bucket's key (`linha` trimmed and lower-cased, `"unknown"`
when missing or empty); the previous index content is discarded since the
fold restarts from the empty index. -/
theorem C8_partition (buses : List NormResult) :
    ((updateLineIndex buses).flatMap Prod.snd).Perm buses ∧
    ((updateLineIndex buses).map Prod.fst).Nodup ∧
    (∀ p ∈ updateLineIndex buses, ∀ x ∈ p.2, lineKey x = p.1) := by
  refine ⟨?_, ?_, ?_⟩
  · simpa [updateLineIndex] using foldl_insert_join buses []
  · exact foldl_insert_nodup buses [] (by simp)
  · exact foldl_insert_buckets buses [] (by simp)

/-- Witness for C8 at a one-record input: the record's bucket key is its
normalized line code. -/
theorem C8_partition_witness : lineKey atCenterBus = "415" :=
  (C8_partition [atCenterBus]).2.2 ("415", [atCenterBus]) (by decide) atCenterBus (by decide)

/-! ## Lemmas for the blank-query claim -/

lemma lineKey_ne_empty (r : NormResult) : lineKey r ≠ "" := by
  unfold lineKey
  cases busLinha r with
  | none => decide
  | some s =>
    show (if jsTrimLower s = "" then "unknown" else jsTrimLower s) ≠ ""
    by_cases h : jsTrimLower s = ""
    · rw [if_pos h]; decide
    · rw [if_neg h]; exact h

lemma jsIncludes_empty_needle (hay : String) : jsIncludes hay "" = true := by
  show listIncludes [] hay.data = true
  induction hay.data with
  | nil => rfl
  | cons c t ih => simp [listIncludes, ih]

lemma indexInsert_bucketsNonempty (idx : CacheNS) (k : String) (b : NormResult)
    (h : ∀ p ∈ idx, p.2 ≠ []) : ∀ p ∈ indexInsert idx k b, p.2 ≠ [] := by
  induction idx with
  | nil =>
    intro p hp
    simp only [indexInsert, List.mem_singleton] at hp
    subst hp; simp
  | cons q t ih =>
    intro p hp
    by_cases hq : q.1 = k
    · simp only [indexInsert, if_pos hq, List.mem_cons] at hp
      rcases hp with hp | hp
      · subst hp; simp
      · exact h p (List.mem_cons_of_mem _ hp)
    · simp only [indexInsert, if_neg hq, List.mem_cons] at hp
      rcases hp with hp | hp
      · exact h p (List.mem_cons.mpr (Or.inl hp))
      · exact ih (fun r hr => h r (List.mem_cons_of_mem _ hr)) p hp

lemma foldl_insert_bucketsNonempty (l : List NormResult) :
    ∀ idx : CacheNS, (∀ p ∈ idx, p.2 ≠ []) →
      ∀ p ∈ l.foldl (fun i x => indexInsert i (lineKey x) x) idx, p.2 ≠ [] := by
  induction l with
  | nil => intro idx h; exact h
  | cons x t ih =>
    intro idx h
    exact ih _ (indexInsert_bucketsNonempty idx (lineKey x) x h)

/-- No key of a rebuilt line index is the empty string. -/
lemma updateLineIndex_key_ne_empty (buses : List NormResult) :
    ∀ p ∈ updateLineIndex buses, ¬ p.1 = "" := by
  intro p hp he
  have hne : p.2 ≠ [] := foldl_insert_bucketsNonempty buses [] (by simp) p hp
  rcases List.exists_mem_of_ne_nil p.2 hne with ⟨x, hx⟩
  have hk := foldl_insert_buckets buses [] (by simp) p hp x hx
  exact lineKey_ne_empty x (hk.trans he)

lemma lineIndexFind_empty_eq_none (buses : List NormResult) :
    lineIndexFind (updateLineIndex buses) "" = none := by
  unfold lineIndexFind
  rw [List.find?_eq_none.mpr]
  · rfl
  · intro p hp
    simpa using updateLineIndex_key_ne_empty buses p hp

lemma substrUnion_empty (idx : CacheNS) :
    substrUnion idx "" = idx.flatMap Prod.snd := by
  unfold substrUnion
  congr 1
  rw [List.filter_eq_self]
  intro p _
  simp [jsIncludes_empty_needle]

/-! ## Claim C9 -/

/-- C9: the one-character string `" "` passes the Joi `min(1)` length
validation, yet normalizes to the empty query, and on a line-cache miss the
substring fallback of `getBusByLine` matches every indexed key, so the call
returns the concatenation of all indexed vehicles rather than an empty
result. -/
theorem C9_blank_query :
    joiLinhaValid " " = true ∧
    ∀ (st : SvcState) (agora : Int) (up : Upstream) (buses : List NormResult),
      cacheGet st.lineCache "line_active_ " = none →
      st.lineIndex = updateLineIndex buses →
      buses ≠ [] →
      (getBusByLine st agora up " ").1 = .ok (st.lineIndex.flatMap Prod.snd) := by
  constructor
  · decide
  · intro st agora up buses hc hidx hne
    have hlen : (st.lineIndex.flatMap Prod.snd).length = buses.length := by
      rw [hidx]
      exact ((foldl_insert_join buses []).trans (by simp)).length_eq
    have hfind : lineIndexFind st.lineIndex (jsTrimLower " ") = none := by
      rw [hidx, show jsTrimLower " " = "" from rfl]
      exact lineIndexFind_empty_eq_none buses
    have hsub : substrUnion st.lineIndex (jsTrimLower " ") = st.lineIndex.flatMap Prod.snd := by
      rw [show jsTrimLower " " = "" from rfl]
      exact substrUnion_empty st.lineIndex
    have hne2 : ¬ (st.lineIndex.flatMap Prod.snd).length = 0 := by
      rw [hlen]
      simpa using hne
    simp only [getBusByLine]
    rw [show ("line_active_" ++ " ") = "line_active_ " from rfl, hc]
    simp only [hfind, hsub]
    rw [if_neg hne2]

/-- Witness for C9: on a concrete state holding a one-record index, the
blank query returns that record. -/
theorem C9_blank_query_witness :
    (getBusByLine blankQueryState 0 .unreachable " ").1
      = .ok (blankQueryState.lineIndex.flatMap Prod.snd) :=
  C9_blank_query.2 blankQueryState 0 .unreachable [atCenterBus] rfl rfl (by decide)

/-! ## Lemmas about the cache model and `getAllBusData` -/

lemma throttledStale_some {st : SvcState} {agora : Int} {d : List NormResult}
    (h : throttledStale st agora = some d) :
    cacheGet st.generalCache staleKey = some d := by
  unfold throttledStale at h
  rcases hl : st.lastFetchTime with _ | t <;> simp only [hl] at h
  · exact absurd h (by simp)
  · by_cases ht : agora - t < fetchInterval
    · rwa [if_pos ht] at h
    · rw [if_neg ht] at h
      exact absurd h (by simp)

lemma throttledStale_of_staleNone {st : SvcState} (agora : Int)
    (hs : cacheGet st.generalCache staleKey = none) :
    throttledStale st agora = none := by
  unfold throttledStale
  rcases hl : st.lastFetchTime with _ | t <;> simp only [hl]
  by_cases ht : agora - t < fetchInterval
  · rw [if_pos ht]; exact hs
  · rw [if_neg ht]

/-! ## Claim C4 -/

/-- C4: `getAllBusData` fails (throws) exactly when there is no fresh cached
copy, the upstream fetch fails (transport error or non-array payload), and
no stale snapshot exists; on a failed fetch with a stale snapshot cached it
returns the snapshot; and any failing call leaves the whole state unchanged
(no partially-built result or partial write). -/
theorem C4_error_handling :
    ∀ (st : SvcState) (agora : Int) (up : Upstream),
      ((getAllBusData st agora up).1 = .error () ↔
        (cacheGet st.generalCache cacheKey = none ∧
          cacheGet st.generalCache staleKey = none ∧
          (up = .notArray ∨ up = .unreachable))) ∧
      ((up = .notArray ∨ up = .unreachable) →
        cacheGet st.generalCache cacheKey = none →
        ∀ d, cacheGet st.generalCache staleKey = some d →
          (getAllBusData st agora up).1 = .ok d) ∧
      ((getAllBusData st agora up).1 = .error () → (getAllBusData st agora up).2 = st) := by
  intro st agora up
  unfold getAllBusData
  rcases hm : cacheGet st.generalCache cacheKey with _ | d
  · rcases hth : throttledStale st agora with _ | s
    · rcases up with arr | _ | _
      · simp
      · rcases hs : cacheGet st.generalCache staleKey with _ | s2 <;> simp [hs]
      · rcases hs : cacheGet st.generalCache staleKey with _ | s2 <;> simp [hs]
    · have hs := throttledStale_some hth
      constructor
      · simp [hs]
      · constructor
        · intro _ _ d2 hd2
          rw [hs] at hd2
          injection hd2 with h2
          rw [h2]
        · simp
  · simp [hm]

/-- Witness for C4: on the empty state with an unreachable upstream, the call
fails (and the failure condition holds). -/
theorem C4_error_handling_witness :
    (getAllBusData emptyState 0 .unreachable).1 = .error () :=
  (C4_error_handling emptyState 0 .unreachable).1.mpr ⟨rfl, rfl, Or.inr rfl⟩

lemma cacheGet_cacheDel_self (c : CacheNS) (k : String) :
    cacheGet (cacheDel c k) k = none := by
  unfold cacheGet cacheDel
  rw [List.find?_eq_none.mpr]
  · rfl
  · intro p hp
    have h2 := (List.mem_filter.mp hp).2
    simp only [decide_eq_true_eq] at h2 ⊢
    exact h2

lemma cacheGet_cacheDel_other (c : CacheNS) (k k2 : String) (h : ¬ k = k2) :
    cacheGet (cacheDel c k2) k = cacheGet c k := by
  unfold cacheGet cacheDel
  congr 1
  induction c with
  | nil => rfl
  | cons p t ih =>
    rw [List.filter_cons]
    by_cases hp : p.1 = k2
    · have hk : ¬ p.1 = k := fun hh => h (hh.symm.trans hp)
      rw [if_neg (by simp [hp]), List.find?_cons_of_neg t (by simp [hk])]
      exact ih
    · rw [if_pos (by simp [hp]), List.find?_cons, List.find?_cons]
      by_cases hk : p.1 = k
      · rw [show decide (p.1 = k) = true by simp [hk]]
      · rw [show decide (p.1 = k) = false by simp [hk]]
        exact ih

/-! ## Claim C6 -/

/-- C6 counterexample: `clearCaches` does *not* clear the line namespace —
on a state whose line cache holds the entry `line_active_415`, the entry is
still present after `clearCaches` (and likewise the position namespace is
never touched), refuting "removes every entry of all three cache
namespaces". -/
theorem C6_counterexample :
    cacheGet (clearCaches lineCachedState).lineCache "line_active_415"
      = some [atCenterBus] := by
  decide

/-- C6 (amended): `clearCaches` removes the two general-namespace entries
(the fresh copy and the stale snapshot) and empties the line index, leaving
the line and position namespaces untouched; afterwards the next
`getAllBusData` cannot serve from cache or stale data, so with a reachable
array payload it performs a genuine fetch, returns the freshly built active
set, and repopulates the line index. -/
theorem C6_clear_amended :
    ∀ st : SvcState,
      cacheGet (clearCaches st).generalCache cacheKey = none ∧
      cacheGet (clearCaches st).generalCache staleKey = none ∧
      (clearCaches st).lineIndex = [] ∧
      (clearCaches st).lineCache = st.lineCache ∧
      (clearCaches st).positionCache = st.positionCache ∧
      (∀ (agora : Int) (arr : List RawBus),
        (getAllBusData (clearCaches st) agora (.ok arr)).1 = .ok (activeBuses agora arr) ∧
        (getAllBusData (clearCaches st) agora (.ok arr)).2.lineIndex
          = updateLineIndex (activeBuses agora arr)) := by
  intro st
  have h1 : cacheGet (clearCaches st).generalCache cacheKey = none := by
    show cacheGet (cacheDel (cacheDel st.generalCache cacheKey) staleKey) cacheKey = none
    rw [cacheGet_cacheDel_other _ _ _ (by decide)]
    exact cacheGet_cacheDel_self _ _
  have h2 : cacheGet (clearCaches st).generalCache staleKey = none :=
    cacheGet_cacheDel_self _ _
  refine ⟨h1, h2, rfl, rfl, rfl, ?_⟩
  intro agora arr
  constructor <;> simp [getAllBusData, h1, throttledStale_of_staleNone agora h2]

/-! ## Lemmas about the distance filter -/

lemma haversineKm_self (lat lon : ℝ) : haversineKm lat lon lat lon = 0 := by
  unfold haversineKm
  simp only [sub_self, zero_mul, zero_div, Real.sin_zero, mul_zero, zero_add, add_zero]
  rw [Real.sqrt_zero, sub_zero, Real.sqrt_one]
  unfold atan2
  rw [if_pos one_pos, zero_div, Real.arctan_zero, mul_zero]

lemma calcularDistancia_self (lat lon : ℝ) : calcularDistancia lat lon lat lon = 0 := by
  unfold calcularDistancia
  rw [if_neg (by norm_num [sub_self]), haversineKm_self]
  exact EReal.coe_zero

lemma haversineKm_symm (a b c d : ℝ) : haversineKm a b c d = haversineKm c d a b := by
  have key : Real.sin ((a - c) * deg2rad / 2) * Real.sin ((a - c) * deg2rad / 2) +
      Real.cos (c * deg2rad) * Real.cos (a * deg2rad) *
        Real.sin ((b - d) * deg2rad / 2) * Real.sin ((b - d) * deg2rad / 2) =
      Real.sin ((c - a) * deg2rad / 2) * Real.sin ((c - a) * deg2rad / 2) +
      Real.cos (a * deg2rad) * Real.cos (c * deg2rad) *
        Real.sin ((d - b) * deg2rad / 2) * Real.sin ((d - b) * deg2rad / 2) := by
    rw [show (a - c) * deg2rad / 2 = -((c - a) * deg2rad / 2) by ring,
        show (b - d) * deg2rad / 2 = -((d - b) * deg2rad / 2) by ring,
        Real.sin_neg, Real.sin_neg]
    ring
  simp only [haversineKm]
  rw [key]

/-! ## Claim C2 -/

/-- C2: `calcularDistancia` returns `Infinity` exactly on the bounding-box
reject (`|Δlat| > 0.1` or `|Δlon| > 0.1`), otherwise the haversine
great-circle distance (Earth radius 6371 km, degrees scaled to radians);
and the distance from the origin to itself is 0. -/
theorem C2_distance :
    (∀ lat1 lon1 lat2 lon2 : ℝ,
      ((|lat2 - lat1| > 0.1 ∨ |lon2 - lon1| > 0.1) →
          calcularDistancia lat1 lon1 lat2 lon2 = ⊤) ∧
      (¬ (|lat2 - lat1| > 0.1 ∨ |lon2 - lon1| > 0.1) →
          calcularDistancia lat1 lon1 lat2 lon2
            = ((haversineKm lat1 lon1 lat2 lon2 : ℝ) : EReal))) ∧
    calcularDistancia 0 0 0 0 = 0 := by
  refine ⟨?_, calcularDistancia_self 0 0⟩
  intro lat1 lon1 lat2 lon2
  constructor
  · intro h
    unfold calcularDistancia
    rw [if_pos h]
  · intro h
    unfold calcularDistancia
    rw [if_neg h]

/-- Witness for C2: the pair `(0,0)`–`(1,1)` violates the bounding box and
the distance is `Infinity`. -/
theorem C2_distance_witness :
    (|(1 : ℝ) - 0| > 0.1 ∨ |(1 : ℝ) - 0| > 0.1) ∧ calcularDistancia 0 0 1 1 = ⊤ :=
  ⟨Or.inl (by norm_num), (C2_distance.1 0 0 1 1).1 (Or.inl (by norm_num))⟩

/-! ## Claim C10 -/

/-- C10: the distance function is symmetric in its two points, on the
bounding-box branch (absolute differences are symmetric) and on the
haversine branch (`sin²` of the negated half-angles and the commuted cosine
product agree). -/
theorem C10_distance_symm (lat1 lon1 lat2 lon2 : ℝ) :
    calcularDistancia lat1 lon1 lat2 lon2 = calcularDistancia lat2 lon2 lat1 lon1 := by
  unfold calcularDistancia
  by_cases h : |lat2 - lat1| > 0.1 ∨ |lon2 - lon1| > 0.1
  · have h2 : |lat1 - lat2| > 0.1 ∨ |lon1 - lon2| > 0.1 := by
      rwa [abs_sub_comm lat1 lat2, abs_sub_comm lon1 lon2]
    rw [if_pos h, if_pos h2]
  · have h2 : ¬ (|lat1 - lat2| > 0.1 ∨ |lon1 - lon2| > 0.1) := by
      rwa [abs_sub_comm lat1 lat2, abs_sub_comm lon1 lon2]
    rw [if_neg h, if_neg h2]
    exact congrArg _ (haversineKm_symm lat1 lon1 lat2 lon2)

/-! ## Claim C7 -/

open Classical in
/-- C7: the position filter is monotone in the radius — every record kept at
radius `r1` is kept at any radius `r2 ≥ r1` (so the result size is
non-increasing as the radius decreases), and every kept record is within
the queried radius by the bounded distance. -/
theorem C7_position_monotone :
    ∀ (lat lon r1 r2 : ℚ) (agora : Int) (l : List NormResult) (b : NormResult),
      r1 ≤ r2 →
      ((b ∈ positionFilter lat lon r1 agora l → b ∈ positionFilter lat lon r2 agora l) ∧
        (positionFilter lat lon r1 agora l).length
          ≤ (positionFilter lat lon r2 agora l).length ∧
        (b ∈ positionFilter lat lon r1 agora l →
          busDistancia lat lon b ≤ (((r1 : ℚ) : ℝ) : EReal))) := by
  intro lat lon r1 r2 agora l b hr
  have hrr : (((r1 : ℚ) : ℝ) : EReal) ≤ (((r2 : ℚ) : ℝ) : EReal) :=
    EReal.coe_le_coe_iff.mpr (by exact_mod_cast hr)
  have himp : ∀ x, KeepPos lat lon r1 agora x → KeepPos lat lon r2 agora x := by
    intro x hx
    exact ⟨hx.1, hx.2.1, le_trans hx.2.2.1 hrr, hx.2.2.2⟩
  refine ⟨?_, ?_, ?_⟩
  · intro hmem
    unfold positionFilter at hmem ⊢
    rw [List.mem_filter] at hmem ⊢
    exact ⟨hmem.1, decide_eq_true (himp b (of_decide_eq_true hmem.2))⟩
  · apply List.Sublist.length_le
    apply List.monotone_filter_right
    intro x hx
    exact decide_eq_true (himp x (of_decide_eq_true hx))
  · intro hmem
    unfold positionFilter at hmem
    rw [List.mem_filter] at hmem
    exact (of_decide_eq_true hmem.2).2.2.1

open Classical in
/-- Witness for C7 at radii `1 ≤ 2`, center `(10,10)` and the record at the
center (distance 0). -/
theorem C7_position_monotone_witness :
    (1 : ℚ) ≤ 2 ∧
    atCenterBus ∈ positionFilter 10 10 1 1700000000000 [atCenterBus] ∧
    atCenterBus ∈ positionFilter 10 10 2 1700000000000 [atCenterBus] ∧
    busDistancia 10 10 atCenterBus ≤ (((1 : ℚ) : ℝ) : EReal) := by
  have hdist : busDistancia 10 10 atCenterBus = 0 := by
    show calcularDistancia ((10 : ℚ) : ℝ) ((10 : ℚ) : ℝ) ((10 : ℚ) : ℝ) ((10 : ℚ) : ℝ) = 0
    exact calcularDistancia_self _ _
  have hle : busDistancia 10 10 atCenterBus ≤ (((1 : ℚ) : ℝ) : EReal) := by
    rw [hdist, ← EReal.coe_zero]
    exact EReal.coe_le_coe_iff.mpr (by norm_num)
  have hkeep : KeepPos 10 10 1 1700000000000 atCenterBus :=
    ⟨by decide, by decide, hle, by decide⟩
  have hmem1 : atCenterBus ∈ positionFilter 10 10 1 1700000000000 [atCenterBus] := by
    unfold positionFilter
    rw [List.mem_filter]
    exact ⟨List.mem_cons_self _ _, decide_eq_true hkeep⟩
  refine ⟨by norm_num, hmem1, ?_, ?_⟩
  · exact (C7_position_monotone 10 10 1 2 1700000000000 [atCenterBus] atCenterBus
      (by norm_num)).1 hmem1
  · exact (C7_position_monotone 10 10 1 2 1700000000000 [atCenterBus] atCenterBus
      (by norm_num)).2.2 hmem1

end Sppo
